import Mathlib

/-!
Verification development for the Griddo squares-contest score pipeline.

The definitions below are a shallow embedding of the Supabase edge
function `check-super-bowl-scores` (source file `src/unnamed/part_000`)
and of the manual score-entry server action
(`src/src/features/contests/actions/save-scores.ts`).

Modelling conventions:
* TypeScript numbers used as integer game scores, grid indices and
  periods become `Nat`; money amounts (square price, payout percent,
  prize amount) become `Rat`, since JS arithmetic on them is exact real
  arithmetic in the ranges of interest.
* Nullable values become `Option`; the relevant JS falsiness of strings
  (null, undefined and the empty string) is captured by `truthyStr` and
  `jsStrOrNull`.
* Database effects become explicit state passing over `DBState`; the
  outcomes of external calls that the code checks (square fetch, result
  upsert, owner lookup, email transport) are inputs in `Env`.  Writes
  whose failures the code silently ignores (the scores-table mirror and
  the final flag update) are modelled as succeeding.  Timestamps and
  the append-only processing log are not modelled; no claim concerns
  them.
-/

/-- JS `Array.prototype.indexOf`: the first index holding `v`, or `-1`
when `v` does not occur. From the lookups at lines 519-520 of the edge
function and lines 106-110 of `save-scores.ts`. -/
def jsIndexOf (v : Nat) : List Nat → Int
  | [] => -1
  | x :: xs =>
    if x = v then 0
    else
      let r := jsIndexOf v xs
      if r = -1 then -1 else r + 1

/-- JS truthiness of a nullable string: null, undefined and `""` are
falsy. -/
def truthyStr : Option String → Bool
  | none => false
  | some s => !s.isEmpty

/-- JS `x || null` on a nullable string: collapses the empty string to
null. -/
def jsStrOrNull : Option String → Option String
  | none => none
  | some s => if s.isEmpty then none else some s

/-- The `contests` row as selected by the pipeline (interface
`ContestRow` in the edge function).  `row_numbers` and `col_numbers`
are nullable in the database even though the TS type writes
`number[]`; the code guards for that. -/
structure ContestRow where
  id : String
  name : String
  slug : String
  owner_id : String
  row_team_name : String
  col_team_name : String
  row_numbers : Option (List Nat)
  col_numbers : Option (List Nat)
  square_price : Rat
  payout_q1_percent : Option Rat
  payout_q2_percent : Option Rat
  payout_q3_percent : Option Rat
  payout_final_percent : Option Rat
  prize_type : String
  prize_q1_text : Option String
  prize_q2_text : Option String
  prize_q3_text : Option String
  prize_final_text : Option String
  status : String
deriving Repr, DecidableEq

/-- The `squares` row as selected by `processQuarter` (interface
`SquareRow`). -/
structure SquareRow where
  id : String
  row_index : Nat
  col_index : Nat
  claimant_first_name : Option String
  claimant_last_name : Option String
  claimant_email : Option String
  claimant_venmo : Option String
deriving Repr, DecidableEq

/-- The `squares` columns selected by `saveScores` (no venmo handle). -/
structure SaveScoresSquare where
  id : String
  row_index : Nat
  col_index : Nat
  claimant_first_name : Option String
  claimant_last_name : Option String
  claimant_email : Option String
deriving Repr, DecidableEq

/-- Projection of a pipeline square row onto the columns `saveScores`
selects. -/
def SquareRow.toSaveScores (sq : SquareRow) : SaveScoresSquare :=
  { id := sq.id
    row_index := sq.row_index
    col_index := sq.col_index
    claimant_first_name := sq.claimant_first_name
    claimant_last_name := sq.claimant_last_name
    claimant_email := sq.claimant_email }

/-- A `super_bowl_quarter_results` row, restricted to the columns the
pipeline reads or writes (interface `QuarterResult`; the two
`*_sent_at` timestamps are not modelled). -/
structure QuarterResultRow where
  contest_id : String
  quarter : String
  home_score : Nat
  away_score : Nat
  home_last_digit : Nat
  away_last_digit : Nat
  winning_square_id : Option String
  winner_first_name : Option String
  winner_last_name : Option String
  winner_email : Option String
  winner_venmo : Option String
  prize_amount : Option Rat
  payout_percent : Option Rat
  winner_email_sent : Bool
  owner_email_sent : Bool
deriving Repr, DecidableEq

/-- A `scores` row as written by the pipeline mirror upsert and by
`saveScores` (`entered_at` not modelled). -/
structure ScoreRow where
  contest_id : String
  quarter : String
  home_score : Nat
  away_score : Nat
  winning_square_id : Option String
deriving Repr, DecidableEq

/-- The mutable database state the quarter processor touches. -/
structure DBState where
  quarter_results : List QuarterResultRow
  scores : List ScoreRow
deriving Repr, DecidableEq

-- ===========================================================================
-- Payout helpers (edge function lines 125-134)
-- ===========================================================================

/-- The dynamic lookup `contest[payout_quarter_percent]`: the payout
column matching the quarter, or undefined for any other key. -/
def payoutField (contest : ContestRow) (quarter : String) : Option Rat :=
  if quarter == "q1" then contest.payout_q1_percent
  else if quarter == "q2" then contest.payout_q2_percent
  else if quarter == "q3" then contest.payout_q3_percent
  else if quarter == "final" then contest.payout_final_percent
  else none

/-- `getPayoutPercent`: the payout column coerced with `|| 0` (null,
undefined and 0 all give 0). -/
def getPayoutPercent (contest : ContestRow) (quarter : String) : Rat :=
  (payoutField contest quarter).getD 0

/-- `getPrizeAmount`: total pot is `square_price * 100` (100 squares),
prize is the quarter percentage of the pot. -/
def getPrizeAmount (contest : ContestRow) (quarter : String) : Rat :=
  let percent := getPayoutPercent contest quarter
  let totalPot := contest.square_price * 100
  (totalPot * percent) / 100

-- ===========================================================================
-- Winner calculation (edge function lines 503-527)
-- ===========================================================================

/-- `assignment?.indexOf(digit) ?? -1`: position of the digit inside an
optional number assignment, `-1` when absent or not found. -/
def lookupIndex (assignment : Option (List Nat)) (digit : Nat) : Int :=
  match assignment with
  | some ns => jsIndexOf digit ns
  | none => -1

/-- `squares.find(sq => sq.row_index === ri && sq.col_index === ci)`. -/
def findByCoords (squares : List SquareRow) (ri ci : Int) : Option SquareRow :=
  squares.find? fun sq => ((sq.row_index : Int) == ri) && ((sq.col_index : Int) == ci)

/-- The automated pipeline winner selection: the winning row index is
the position of the home last digit inside `row_numbers`, the winning
column index the position of the away last digit inside `col_numbers`;
no winner when either lookup fails. -/
def pqWinningSquare (rowNumbers colNumbers : Option (List Nat))
    (squares : List SquareRow) (homeLastDigit awayLastDigit : Nat) : Option SquareRow :=
  let winningRowIndex := lookupIndex rowNumbers homeLastDigit
  let winningColIndex := lookupIndex colNumbers awayLastDigit
  if winningRowIndex != -1 && winningColIndex != -1 then
    findByCoords squares winningRowIndex winningColIndex
  else
    none

-- ===========================================================================
-- Manual score entry winner selection (save-scores.ts lines 99-120)
-- ===========================================================================

/-- The per-score winner selection of `saveScores`: the assignments are
known non-null there (the action errors out earlier otherwise). -/
def ssWinningSquare (rowNumbers colNumbers : List Nat)
    (squares : List SaveScoresSquare) (homeScore awayScore : Nat) : Option SaveScoresSquare :=
  let homeLastDigit := homeScore % 10
  let awayLastDigit := awayScore % 10
  let winningRowIndex := jsIndexOf homeLastDigit rowNumbers
  let winningColIndex := jsIndexOf awayLastDigit colNumbers
  if winningRowIndex != -1 && winningColIndex != -1 then
    squares.find? fun sq => ((sq.row_index : Int) == winningRowIndex) && ((sq.col_index : Int) == winningColIndex)
  else
    none

/-- `winningSquare?.id || null` in `saveScores`. -/
def ssWinningSquareId (rowNumbers colNumbers : List Nat)
    (squares : List SaveScoresSquare) (homeScore awayScore : Nat) : Option String :=
  jsStrOrNull ((ssWinningSquare rowNumbers colNumbers squares homeScore awayScore).map (·.id))

-- ===========================================================================
-- Quarter resolution (edge function lines 826-857)
-- ===========================================================================

/-- `PERIOD_TO_QUARTER`: the fixed period table of the edge function. -/
def PERIOD_TO_QUARTER : Nat → Option String
  | 1 => some "q1"
  | 2 => some "q2"
  | 3 => some "q3"
  | 4 => some "final"
  | _ => none

/-- The quarter resolution of the main handler: manual override first,
then the final sweep, then the end-of-period backfill loop, else
nothing.  `manualQuarter` is the body quarter after the `|| null`
normalisation, `period` is `espn.period || 0`. -/
def quartersToProcess (manualQuarter : Option String) (statusName : String)
    (completed : Bool) (period : Nat) : List String :=
  match manualQuarter with
  | some q => [q]
  | none =>
    if statusName == "STATUS_FINAL" || completed then
      ["q1", "q2", "q3", "final"]
    else if statusName == "STATUS_END_PERIOD" || statusName == "STATUS_HALFTIME" then
      (List.range' 1 (min period 4)).filterMap PERIOD_TO_QUARTER
    else
      []

-- ===========================================================================
-- Database operations on the quarter-results and scores tables
-- ===========================================================================

/-- Key match on (contest_id, quarter), the composite unique key of
`super_bowl_quarter_results`. -/
def qrKeyMatches (cid q : String) (r : QuarterResultRow) : Bool :=
  r.contest_id == cid && r.quarter == q

/-- `.select(...).eq(contest_id).eq(quarter).single()`. -/
def findQR (rows : List QuarterResultRow) (cid q : String) : Option QuarterResultRow :=
  rows.find? (qrKeyMatches cid q)

/-- `.upsert(row, onConflict: contest_id,quarter)`: replace the row
holding the key, or append when the key is new.  The composite unique
constraint guarantees at most one conflicting row. -/
def upsertQR : List QuarterResultRow → QuarterResultRow → List QuarterResultRow
  | [], row => [row]
  | r :: rs, row =>
    if qrKeyMatches row.contest_id row.quarter r then row :: rs
    else r :: upsertQR rs row

/-- `.update({flags}).eq(contest_id).eq(quarter)`: set the two email
flags on every row holding the key. -/
def updateEmailFlags (rows : List QuarterResultRow) (cid q : String)
    (w o : Bool) : List QuarterResultRow :=
  rows.map fun r =>
    if qrKeyMatches cid q r then { r with winner_email_sent := w, owner_email_sent := o }
    else r

/-- Key match on the `scores` table. -/
def scoreKeyMatches (cid q : String) (r : ScoreRow) : Bool :=
  r.contest_id == cid && r.quarter == q

/-- The best-effort mirror upsert into `scores`. -/
def upsertScore : List ScoreRow → ScoreRow → List ScoreRow
  | [], row => [row]
  | r :: rs, row =>
    if scoreKeyMatches row.contest_id row.quarter r then row :: rs
    else r :: upsertScore rs row

/-- The winner-email-sent flag of the existing result row, read with
optional chaining (`existing?.winner_email_sent`, false when no row). -/
def exWinnerSent (db : DBState) (cid q : String) : Bool :=
  match findQR db.quarter_results cid q with
  | some e => e.winner_email_sent
  | none => false

/-- The owner-email-sent flag of the existing result row. -/
def exOwnerSent (db : DBState) (cid q : String) : Bool :=
  match findQR db.quarter_results cid q with
  | some e => e.owner_email_sent
  | none => false

-- ===========================================================================
-- Environment and outcome of one processQuarter call
-- ===========================================================================

/-- Which notification template a transport call carried. -/
inductive EmailKind where
  | winner
  | owner
deriving Repr, DecidableEq

/-- One call to `sendEmail`: recipient, template kind, and whether the
transport accepted it (`sendEmail` converts failures to false). -/
structure SentEmail where
  recipient : String
  kind : EmailKind
  ok : Bool
deriving Repr, DecidableEq

/-- Outcomes of the external calls one `processQuarter` run makes.
`squaresResult` is none when the squares fetch errors; `upsertOk` is
the success of the result upsert; `ownerEmail` is the address resolved
from `auth.admin.getUserById` (none when unresolvable); the two send
flags say whether the transport accepts each send. -/
structure Env where
  squaresResult : Option (List SquareRow)
  upsertOk : Bool
  ownerEmail : Option String
  winnerSendOk : Bool
  ownerSendOk : Bool
deriving Repr, DecidableEq

/-- The result of one `processQuarter` call: its return value, the
database afterwards, and the transport calls made. -/
structure PQOut where
  processed : Bool
  error : Option String
  db : DBState
  emails : List SentEmail
deriving Repr, DecidableEq

/-- The result record built at lines 533-549 of the edge function
(email flags start false; the later status update sets them). -/
def buildResult (contest : ContestRow) (quarter : String)
    (homeScore awayScore : Nat) (winningSquare : Option SquareRow) : QuarterResultRow :=
  { contest_id := contest.id
    quarter := quarter
    home_score := homeScore
    away_score := awayScore
    home_last_digit := homeScore % 10
    away_last_digit := awayScore % 10
    winning_square_id := jsStrOrNull (winningSquare.map (·.id))
    winner_first_name := jsStrOrNull (winningSquare.bind (·.claimant_first_name))
    winner_last_name := jsStrOrNull (winningSquare.bind (·.claimant_last_name))
    winner_email := jsStrOrNull (winningSquare.bind (·.claimant_email))
    winner_venmo := jsStrOrNull (winningSquare.bind (·.claimant_venmo))
    prize_amount := some (getPrizeAmount contest quarter)
    payout_percent := some (getPayoutPercent contest quarter)
    winner_email_sent := false
    owner_email_sent := false }

/-- The winner-email step (edge function lines 577-597): attempt the
send only when still needed and a claimant email exists; when the
winning square has no claimant email, mark the obligation satisfied
without a transport call; otherwise keep the flag read at the start. -/
def winnerStep (env : Env) (exW : Bool) (claimEmail : Option String) : Bool × List SentEmail :=
  if !exW && truthyStr claimEmail then
    (env.winnerSendOk,
      [{ recipient := claimEmail.getD "", kind := EmailKind.winner, ok := env.winnerSendOk }])
  else if !truthyStr claimEmail then
    (true, [])
  else
    (exW, [])

/-- The owner-email step (edge function lines 599-624): when still
needed, resolve the owner address and attempt the send when one exists;
otherwise leave the flag as read at the start. -/
def ownerStep (env : Env) (exO : Bool) : Bool × List SentEmail :=
  if !exO && truthyStr env.ownerEmail then
    (env.ownerSendOk,
      [{ recipient := env.ownerEmail.getD "", kind := EmailKind.owner, ok := env.ownerSendOk }])
  else
    (exO, [])

/-- The successful tail of `processQuarter` after the squares fetch and
the result upsert succeed (edge function lines 551-638): result upsert,
scores mirror, conditional sends, final flag update. -/
def pqSuccessOut (env : Env) (db : DBState) (contest : ContestRow) (quarter : String)
    (homeScore awayScore : Nat) (squares : List SquareRow) : PQOut :=
  let winningSquare :=
    pqWinningSquare contest.row_numbers contest.col_numbers squares
      (homeScore % 10) (awayScore % 10)
  let result := buildResult contest quarter homeScore awayScore winningSquare
  let w := winnerStep env (exWinnerSent db contest.id quarter) (winningSquare.bind (·.claimant_email))
  let o := ownerStep env (exOwnerSent db contest.id quarter)
  { processed := true
    error := none
    db :=
      { quarter_results :=
          updateEmailFlags (upsertQR db.quarter_results result) contest.id quarter w.1 o.1
        scores :=
          upsertScore db.scores
            { contest_id := contest.id
              quarter := quarter
              home_score := homeScore
              away_score := awayScore
              winning_square_id := jsStrOrNull (winningSquare.map (·.id)) } }
    emails := w.2 ++ o.2 }

/-- `processQuarter` (edge function lines 478-639): short-circuit when
both emails were already sent, abort on squares fetch or result upsert
failure, otherwise run the successful tail. -/
def processQuarter (env : Env) (db : DBState) (contest : ContestRow)
    (quarter : String) (homeScore awayScore : Nat) : PQOut :=
  if exWinnerSent db contest.id quarter && exOwnerSent db contest.id quarter then
    { processed := false, error := none, db := db, emails := [] }
  else
    match env.squaresResult with
    | none =>
      { processed := false, error := some "Failed to fetch squares", db := db, emails := [] }
    | some squares =>
      if !env.upsertOk then
        { processed := false, error := some "Failed to upsert result", db := db, emails := [] }
      else
        pqSuccessOut env db contest quarter homeScore awayScore squares

-- ===========================================================================
-- The per-contest, per-quarter loop of the main handler (lines 896-938)
-- ===========================================================================

/-- One entry of the per-(contest, quarter) results array returned by
the handler. -/
structure RunEntry where
  contestId : String
  quarter : String
  processed : Bool
  error : Option String
deriving Repr, DecidableEq

/-- The inner quarter loop for one contest; the database threads
through the calls, each call sees its own external outcomes via
`envOf`. -/
def processQuarters (envOf : String → String → Env) (contest : ContestRow)
    (quarters : List String) (db : DBState) (homeScore awayScore : Nat) :
    List RunEntry × DBState :=
  match quarters with
  | [] => ([], db)
  | q :: rest =>
    let out := processQuarter (envOf contest.id q) db contest q homeScore awayScore
    let tail := processQuarters envOf contest rest out.db homeScore awayScore
    ({ contestId := contest.id, quarter := q, processed := out.processed, error := out.error } :: tail.1,
     tail.2)

/-- The outer contest loop: contests without assigned numbers are
skipped with `continue` before any quarter processing. -/
def processContests (envOf : String → String → Env) (quarters : List String)
    (contests : List ContestRow) (db : DBState) (homeScore awayScore : Nat) :
    List RunEntry × DBState :=
  match contests with
  | [] => ([], db)
  | c :: rest =>
    if c.row_numbers.isNone || c.col_numbers.isNone then
      processContests envOf quarters rest db homeScore awayScore
    else
      let this := processQuarters envOf c quarters db homeScore awayScore
      let tail := processContests envOf quarters rest this.2 homeScore awayScore
      (this.1 ++ tail.1, tail.2)

-- ===========================================================================
-- Facts about jsIndexOf
-- ===========================================================================

theorem jsIndexOf_cons (v x : Nat) (xs : List Nat) :
    jsIndexOf v (x :: xs) =
      if x = v then 0 else if jsIndexOf v xs = -1 then -1 else jsIndexOf v xs + 1 := rfl

theorem jsIndexOf_neg_one_or_nonneg (v : Nat) (l : List Nat) :
    jsIndexOf v l = -1 ∨ 0 ≤ jsIndexOf v l := by
  induction l with
  | nil => left; rfl
  | cons x xs ih =>
    rw [jsIndexOf_cons]
    by_cases h : x = v
    · right; simp [h]
    · rcases ih with h1 | h1
      · left; simp [h, h1]
      · right
        rw [if_neg h]
        have h2 : jsIndexOf v xs ≠ -1 := by omega
        rw [if_neg h2]
        omega

theorem jsIndexOf_eq_neg_one_iff (v : Nat) (l : List Nat) :
    jsIndexOf v l = -1 ↔ v ∉ l := by
  induction l with
  | nil => simp [jsIndexOf]
  | cons x xs ih =>
    rw [jsIndexOf_cons]
    by_cases h : x = v
    · simp [h]
    · have hne : ¬v = x := fun hv => h hv.symm
      by_cases h1 : jsIndexOf v xs = -1
      · simp [h, h1, List.mem_cons, hne, ih.mp h1]
      · have h0 : 0 ≤ jsIndexOf v xs := by
          rcases jsIndexOf_neg_one_or_nonneg v xs with h2 | h2
          · exact absurd h2 h1
          · exact h2
        have hmem : v ∈ xs := by
          by_contra hm
          exact h1 (ih.mpr hm)
        rw [if_neg h, if_neg h1]
        simp [List.mem_cons, hmem]
        omega

theorem jsIndexOf_nodup_get (v : Nat) (l : List Nat) (i : Nat) (hi : i < l.length)
    (hnd : l.Nodup) (hv : l.get ⟨i, hi⟩ = v) : jsIndexOf v l = i := by
  induction l generalizing i with
  | nil => simp at hi
  | cons x xs ih =>
    rw [List.nodup_cons] at hnd
    cases i with
    | zero =>
      simp only [List.get] at hv
      rw [jsIndexOf_cons, if_pos hv]
      rfl
    | succ n =>
      have hn : n < xs.length := by simpa using hi
      have hvn : xs.get ⟨n, hn⟩ = v := by simpa using hv
      have hx : ¬x = v := by
        intro hxv
        exact hnd.1 (hxv ▸ hvn ▸ List.get_mem xs n hn)
      have hrec : jsIndexOf v xs = n := ih n hn hnd.2 hvn
      rw [jsIndexOf_cons, if_neg hx, hrec]
      have h2 : ((n : Int)) ≠ -1 := by omega
      rw [if_neg h2]
      push_cast
      ring

-- ===========================================================================
-- C3: digit-matching winner computation
-- ===========================================================================

/-- C3: the winner computation takes the last digit of each score
(score mod 10), the winning row index is the position inside
row_numbers holding the home last digit and the winning column index
the position inside col_numbers holding the away last digit; when an
assignment is absent or a digit is not found there is no winner, and
otherwise the winning square is the square of the contest at that
(row_index, col_index). -/
theorem C3_digit_matching (rn cn : List Nat) (squares : List SquareRow)
    (hs as : Nat) (c : ContestRow) (q : String) (ws : Option SquareRow) :
    ((buildResult c q hs as ws).home_last_digit = hs % 10 ∧
      (buildResult c q hs as ws).away_last_digit = as % 10) ∧
    (∀ cno, pqWinningSquare none cno squares (hs % 10) (as % 10) = none) ∧
    (∀ rno, pqWinningSquare rno none squares (hs % 10) (as % 10) = none) ∧
    (hs % 10 ∉ rn → ∀ cno, pqWinningSquare (some rn) cno squares (hs % 10) (as % 10) = none) ∧
    (as % 10 ∉ cn → ∀ rno, pqWinningSquare rno (some cn) squares (hs % 10) (as % 10) = none) ∧
    (rn.Nodup → cn.Nodup →
      ∀ i j (hi : i < rn.length) (hj : j < cn.length),
        rn.get ⟨i, hi⟩ = hs % 10 → cn.get ⟨j, hj⟩ = as % 10 →
        lookupIndex (some rn) (hs % 10) = i ∧
        lookupIndex (some cn) (as % 10) = j ∧
        pqWinningSquare (some rn) (some cn) squares (hs % 10) (as % 10) =
          findByCoords squares i j) := by
  refine ⟨⟨rfl, rfl⟩, ?_, ?_, ?_, ?_, ?_⟩
  · intro cno
    simp [pqWinningSquare, lookupIndex]
  · intro rno
    simp [pqWinningSquare, lookupIndex]
  · intro hmem cno
    have h1 : jsIndexOf (hs % 10) rn = -1 := (jsIndexOf_eq_neg_one_iff _ _).mpr hmem
    simp [pqWinningSquare, lookupIndex, h1]
  · intro hmem rno
    have h1 : jsIndexOf (as % 10) cn = -1 := (jsIndexOf_eq_neg_one_iff _ _).mpr hmem
    simp [pqWinningSquare, lookupIndex, h1]
  · intro hndr hndc i j hi hj hvi hvj
    have h1 : lookupIndex (some rn) (hs % 10) = i := jsIndexOf_nodup_get _ _ i hi hndr hvi
    have h2 : lookupIndex (some cn) (as % 10) = j := jsIndexOf_nodup_get _ _ j hj hndc hvj
    refine ⟨h1, h2, ?_⟩
    have hne1 : ((i : Int)) ≠ -1 := by omega
    have hne2 : ((j : Int)) ≠ -1 := by omega
    simp [pqWinningSquare, h1, h2, hne1, hne2]

-- ===========================================================================
-- C4: the automated pipeline and manual saveScores agree on winners
-- ===========================================================================

/-- C4: on identical inputs (present number assignments, same squares,
same scores) the automated winner selection of processQuarter and the
manual saveScores selection produce the same winning row index, the
same winning column index and the same winning square id, and return
no winner in exactly the same cases. -/
theorem C4_paths_agree (rn cn : List Nat) (squares : List SquareRow) (hs as : Nat) :
    jsIndexOf (hs % 10) rn = lookupIndex (some rn) (hs % 10) ∧
    jsIndexOf (as % 10) cn = lookupIndex (some cn) (as % 10) ∧
    ssWinningSquare rn cn (squares.map SquareRow.toSaveScores) hs as =
      (pqWinningSquare (some rn) (some cn) squares (hs % 10) (as % 10)).map SquareRow.toSaveScores ∧
    ssWinningSquareId rn cn (squares.map SquareRow.toSaveScores) hs as =
      jsStrOrNull ((pqWinningSquare (some rn) (some cn) squares (hs % 10) (as % 10)).map (·.id)) ∧
    ((ssWinningSquare rn cn (squares.map SquareRow.toSaveScores) hs as).isNone ↔
      (pqWinningSquare (some rn) (some cn) squares (hs % 10) (as % 10)).isNone) := by
  have hsq : ssWinningSquare rn cn (squares.map SquareRow.toSaveScores) hs as =
      (pqWinningSquare (some rn) (some cn) squares (hs % 10) (as % 10)).map SquareRow.toSaveScores := by
    unfold ssWinningSquare pqWinningSquare lookupIndex findByCoords
    by_cases hguard : (jsIndexOf (hs % 10) rn != -1 && jsIndexOf (as % 10) cn != -1) = true
    · rw [if_pos hguard, if_pos hguard, List.find?_map]
      rfl
    · rw [if_neg hguard, if_neg hguard]
      rfl
  refine ⟨rfl, rfl, hsq, ?_, ?_⟩
  · unfold ssWinningSquareId
    rw [hsq, Option.map_map]
    rfl
  · rw [hsq]
    cases pqWinningSquare (some rn) (some cn) squares (hs % 10) (as % 10) <;> simp

-- ===========================================================================
-- C5: quarter resolution decision table
-- ===========================================================================

theorem range_filterMap_period (p : Nat) :
    (List.range' 1 (min p 4)).filterMap PERIOD_TO_QUARTER =
      ["q1", "q2", "q3", "final"].take (min p 4) := by
  match p with
  | 0 => rfl
  | 1 => rfl
  | 2 => rfl
  | 3 => rfl
  | n + 4 =>
    have h : min (n + 4) 4 = 4 := by omega
    rw [h]
    rfl

/-- C5: the quarter resolver is the priority decision table — a manual
override returns exactly that quarter regardless of status; else a
final status code or completed flag returns all four quarters in fixed
order; else an end-of-period or halftime status with period p returns
the quarters of the periods 1 up to min(p, 4) in ascending order; else
nothing is processed. -/
theorem C5_quarter_resolution (mq : Option String) (st : String) (comp : Bool) (p : Nat) :
    (∀ q, mq = some q → quartersToProcess mq st comp p = [q]) ∧
    (mq = none → (st = "STATUS_FINAL" ∨ comp = true) →
      quartersToProcess mq st comp p = ["q1", "q2", "q3", "final"]) ∧
    (mq = none → ¬st = "STATUS_FINAL" → comp = false →
      (st = "STATUS_END_PERIOD" ∨ st = "STATUS_HALFTIME") →
      quartersToProcess mq st comp p = ["q1", "q2", "q3", "final"].take (min p 4)) ∧
    (mq = none → ¬st = "STATUS_FINAL" → comp = false →
      ¬st = "STATUS_END_PERIOD" → ¬st = "STATUS_HALFTIME" →
      quartersToProcess mq st comp p = []) := by
  refine ⟨?_, ?_, ?_, ?_⟩
  · intro q hq
    subst hq
    rfl
  · intro hmq hfin
    subst hmq
    rcases hfin with h | h
    · subst h
      simp [quartersToProcess]
    · subst h
      simp [quartersToProcess]
  · intro hmq hnf hcomp hqe
    subst hmq
    subst hcomp
    rcases hqe with h | h <;> subst h <;>
      simp [quartersToProcess, range_filterMap_period]
  · intro hmq hnf hcomp hne hnh
    subst hmq
    subst hcomp
    simp [quartersToProcess, hnf, hne, hnh]

-- ===========================================================================
-- C6: prize amount formula
-- ===========================================================================

/-- C6: the prize amount for a quarter is
square_price x 100 x payout_percent / 100, no matter how many squares
are claimed (the computation does not consult the squares); in
particular square_price 10 with payout percent 25 gives 250. -/
theorem C6_prize_formula (c : ContestRow) (q : String) :
    getPrizeAmount c q = c.square_price * 100 * getPayoutPercent c q / 100 ∧
    (c.square_price = 10 → getPayoutPercent c q = 25 → getPrizeAmount c q = 250) := by
  constructor
  · rfl
  · intro h1 h2
    show c.square_price * 100 * getPayoutPercent c q / 100 = 250
    rw [h1, h2]
    norm_num

-- ===========================================================================
-- Sample data used by the witnesses
-- ===========================================================================

/-- A square at grid position (0, 1) with a claimant. -/
def sampleSquare : SquareRow :=
  { id := "sq-0-1"
    row_index := 0
    col_index := 1
    claimant_first_name := some "Ada"
    claimant_last_name := some "Lovelace"
    claimant_email := some "ada@example.com"
    claimant_venmo := none }

/-- An unclaimed square at grid position (0, 1). -/
def sampleUnclaimedSquare : SquareRow :=
  { id := "sq-0-1"
    row_index := 0
    col_index := 1
    claimant_first_name := none
    claimant_last_name := none
    claimant_email := none
    claimant_venmo := none }

/-- The row-number permutation of the spec example (value 7 at
position 0). -/
def sampleRowNumbers : List Nat := [7, 3, 0, 1, 2, 4, 5, 6, 8, 9]

/-- The column-number permutation of the spec example (value 3 at
position 1). -/
def sampleColNumbers : List Nat := [0, 3, 1, 2, 4, 5, 6, 7, 8, 9]

/-- A contest with assigned numbers, square price 10 and a 25 percent
first-quarter payout. -/
def sampleContest : ContestRow :=
  { id := "contest-1"
    name := "Office Pool"
    slug := "office-pool"
    owner_id := "owner-1"
    row_team_name := "Chiefs"
    col_team_name := "Eagles"
    row_numbers := some sampleRowNumbers
    col_numbers := some sampleColNumbers
    square_price := 10
    payout_q1_percent := some 25
    payout_q2_percent := some 25
    payout_q3_percent := some 25
    payout_final_percent := some 25
    prize_type := "cash"
    prize_q1_text := none
    prize_q2_text := none
    prize_q3_text := none
    prize_final_text := none
    status := "in_progress" }

-- ===========================================================================
-- Witnesses for C3, C5, C6
-- ===========================================================================

/-- Witness for C3 at the spec example: home score 47 selects row
position 0 of sampleRowNumbers, away score 23 selects column position
1 of sampleColNumbers, and the winner is the square at (0, 1). -/
theorem C3_witness :
    lookupIndex (some sampleRowNumbers) (47 % 10) = 0 ∧
    lookupIndex (some sampleColNumbers) (23 % 10) = 1 ∧
    pqWinningSquare (some sampleRowNumbers) (some sampleColNumbers) [sampleSquare]
      (47 % 10) (23 % 10) = findByCoords [sampleSquare] 0 1 ∧
    findByCoords [sampleSquare] 0 1 = some sampleSquare := by
  have h :=
    (C3_digit_matching sampleRowNumbers sampleColNumbers [sampleSquare] 47 23
        sampleContest "q1" none).2.2.2.2.2
      (by decide) (by decide) 0 1 (by decide) (by decide) (by decide) (by decide)
  exact ⟨h.1, h.2.1, h.2.2, by decide⟩

/-- Witness for C5: end-of-period at period 3 backfills the first
three quarters; a manual override is honoured mid-quarter; a final
status returns the full sweep. -/
theorem C5_witness :
    quartersToProcess none "STATUS_END_PERIOD" false 3 = ["q1", "q2", "q3"] ∧
    quartersToProcess (some "q2") "STATUS_IN_PROGRESS" false 2 = ["q2"] ∧
    quartersToProcess none "STATUS_FINAL" false 4 = ["q1", "q2", "q3", "final"] := by
  have h1 :=
    (C5_quarter_resolution none "STATUS_END_PERIOD" false 3).2.2.1 rfl
      (by decide) rfl (Or.inl rfl)
  have h2 := (C5_quarter_resolution (some "q2") "STATUS_IN_PROGRESS" false 2).1 "q2" rfl
  have h3 := (C5_quarter_resolution none "STATUS_FINAL" false 4).2.1 rfl (Or.inl rfl)
  refine ⟨?_, h2, h3⟩
  rw [h1]
  rfl

/-- Witness for C6: square price 10 and payout percent 25 give a prize
amount of 250. -/
theorem C6_witness : getPrizeAmount sampleContest "q1" = 250 :=
  (C6_prize_formula sampleContest "q1").2 rfl (by decide)

-- ===========================================================================
-- Branch equations for processQuarter
-- ===========================================================================

theorem processQuarter_shortcircuit (env : Env) (db : DBState) (c : ContestRow)
    (q : String) (hs as : Nat)
    (h : (exWinnerSent db c.id q && exOwnerSent db c.id q) = true) :
    processQuarter env db c q hs as =
      { processed := false, error := none, db := db, emails := [] } := by
  unfold processQuarter
  rw [h]
  rfl

theorem processQuarter_squaresError (env : Env) (db : DBState) (c : ContestRow)
    (q : String) (hs as : Nat)
    (hflag : (exWinnerSent db c.id q && exOwnerSent db c.id q) = false)
    (hsq : env.squaresResult = none) :
    processQuarter env db c q hs as =
      { processed := false, error := some "Failed to fetch squares", db := db, emails := [] } := by
  unfold processQuarter
  rw [hflag, hsq]
  rfl

theorem processQuarter_upsertError (env : Env) (db : DBState) (c : ContestRow)
    (q : String) (hs as : Nat) (squares : List SquareRow)
    (hflag : (exWinnerSent db c.id q && exOwnerSent db c.id q) = false)
    (hsq : env.squaresResult = some squares)
    (hup : env.upsertOk = false) :
    processQuarter env db c q hs as =
      { processed := false, error := some "Failed to upsert result", db := db, emails := [] } := by
  unfold processQuarter
  rw [hflag, hsq, hup]
  rfl

theorem processQuarter_success (env : Env) (db : DBState) (c : ContestRow)
    (q : String) (hs as : Nat) (squares : List SquareRow)
    (hflag : (exWinnerSent db c.id q && exOwnerSent db c.id q) = false)
    (hsq : env.squaresResult = some squares)
    (hup : env.upsertOk = true) :
    processQuarter env db c q hs as = pqSuccessOut env db c q hs as squares := by
  unfold processQuarter
  rw [hflag, hsq, hup]
  rfl

/-- Every call either fails leaving the database untouched with no
transport calls, or runs the successful tail. -/
theorem processQuarter_split (env : Env) (db : DBState) (c : ContestRow)
    (q : String) (hs as : Nat) :
    ((processQuarter env db c q hs as).processed = false ∧
      (processQuarter env db c q hs as).db = db ∧
      (processQuarter env db c q hs as).emails = []) ∨
    ((exWinnerSent db c.id q && exOwnerSent db c.id q) = false ∧
      ∃ squares, env.squaresResult = some squares ∧ env.upsertOk = true ∧
        processQuarter env db c q hs as = pqSuccessOut env db c q hs as squares) := by
  by_cases hflag : (exWinnerSent db c.id q && exOwnerSent db c.id q) = true
  · left
    rw [processQuarter_shortcircuit env db c q hs as hflag]
    exact ⟨rfl, rfl, rfl⟩
  · have hflag2 : (exWinnerSent db c.id q && exOwnerSent db c.id q) = false :=
      Bool.eq_false_iff.mpr hflag
    cases hsq : env.squaresResult with
    | none =>
      left
      rw [processQuarter_squaresError env db c q hs as hflag2 hsq]
      exact ⟨rfl, rfl, rfl⟩
    | some squares =>
      cases hup : env.upsertOk with
      | false =>
        left
        rw [processQuarter_upsertError env db c q hs as squares hflag2 hsq hup]
        exact ⟨rfl, rfl, rfl⟩
      | true =>
        right
        exact ⟨hflag2, squares, rfl, rfl, processQuarter_success env db c q hs as squares hflag2 hsq hup⟩

-- ===========================================================================
-- Facts about the database operations
-- ===========================================================================

theorem qrKeyMatches_self (r : QuarterResultRow) :
    qrKeyMatches r.contest_id r.quarter r = true := by
  simp [qrKeyMatches]

theorem qrKeyMatches_update (cid2 q2 : String) (w o : Bool) (r : QuarterResultRow) :
    qrKeyMatches cid2 q2 { r with winner_email_sent := w, owner_email_sent := o } =
      qrKeyMatches cid2 q2 r := by
  simp [qrKeyMatches]

theorem findQR_upsertQR_self (rows : List QuarterResultRow) (row : QuarterResultRow) :
    findQR (upsertQR rows row) row.contest_id row.quarter = some row := by
  induction rows with
  | nil => simp [upsertQR, findQR, List.find?, qrKeyMatches_self]
  | cons r rs ih =>
    by_cases h : qrKeyMatches row.contest_id row.quarter r = true
    · simp [upsertQR, h, findQR, List.find?, qrKeyMatches_self]
    · have h2 : qrKeyMatches row.contest_id row.quarter r = false := Bool.eq_false_iff.mpr h
      simp only [upsertQR, h2, Bool.false_eq_true, if_false, findQR, List.find?]
      exact ih

theorem findQR_updateEmailFlags (rows : List QuarterResultRow) (cid q : String) (w o : Bool) :
    findQR (updateEmailFlags rows cid q w o) cid q =
      (findQR rows cid q).map fun r => { r with winner_email_sent := w, owner_email_sent := o } := by
  induction rows with
  | nil => rfl
  | cons r rs ih =>
    by_cases h : qrKeyMatches cid q r = true
    · simp only [updateEmailFlags, List.map, h, if_true, findQR, List.find?]
      rw [qrKeyMatches_update cid q w o r, h]
      rfl
    · have h2 : qrKeyMatches cid q r = false := Bool.eq_false_iff.mpr h
      simp only [updateEmailFlags, List.map, h2, Bool.false_eq_true, if_false, findQR, List.find?]
      exact ih

theorem mem_upsertQR (rows : List QuarterResultRow) (row r : QuarterResultRow)
    (h : r ∈ upsertQR rows row) : r ∈ rows ∨ r = row := by
  induction rows with
  | nil =>
    simp [upsertQR] at h
    exact Or.inr h
  | cons x xs ih =>
    by_cases hx : qrKeyMatches row.contest_id row.quarter x = true
    · simp only [upsertQR, hx, if_true] at h
      rcases List.mem_cons.mp h with h1 | h1
      · exact Or.inr h1
      · exact Or.inl (List.mem_cons_of_mem x h1)
    · have hx2 : qrKeyMatches row.contest_id row.quarter x = false := Bool.eq_false_iff.mpr hx
      simp only [upsertQR, hx2, Bool.false_eq_true, if_false] at h
      rcases List.mem_cons.mp h with h1 | h1
      · exact Or.inl (h1 ▸ List.mem_cons_self x xs)
      · rcases ih h1 with h2 | h2
        · exact Or.inl (List.mem_cons_of_mem x h2)
        · exact Or.inr h2

theorem qrKeyMatches_contest_id (cid q : String) (r : QuarterResultRow)
    (h : qrKeyMatches cid q r = true) : r.contest_id = cid := by
  simp [qrKeyMatches] at h
  exact h.1

theorem mem_updateEmailFlags (rows : List QuarterResultRow) (cid q : String) (w o : Bool)
    (r : QuarterResultRow) (h : r ∈ updateEmailFlags rows cid q w o) :
    r ∈ rows ∨ r.contest_id = cid := by
  rcases List.mem_map.mp h with ⟨x, hx, hfx⟩
  by_cases hk : qrKeyMatches cid q x = true
  · right
    rw [← hfx]
    simp only [hk, if_true]
    exact qrKeyMatches_contest_id cid q x hk
  · left
    have hk2 : qrKeyMatches cid q x = false := Bool.eq_false_iff.mpr hk
    rw [← hfx]
    simp only [hk2, Bool.false_eq_true, if_false]
    exact hx

-- ===========================================================================
-- Row counting for the uniqueness invariant
-- ===========================================================================

/-- The number of quarter-result rows holding a given
(contest, quarter) key. -/
def countQR (rows : List QuarterResultRow) (cid q : String) : Nat :=
  (rows.filter (qrKeyMatches cid q)).length

theorem countQR_upsertQR_self (rows : List QuarterResultRow) (row : QuarterResultRow) :
    countQR (upsertQR rows row) row.contest_id row.quarter =
      max 1 (countQR rows row.contest_id row.quarter) := by
  induction rows with
  | nil => simp [upsertQR, countQR, qrKeyMatches_self]
  | cons x xs ih =>
    by_cases hx : qrKeyMatches row.contest_id row.quarter x = true
    · simp only [upsertQR, hx, if_true, countQR, List.filter, qrKeyMatches_self,
        List.length_cons]
      omega
    · have hx2 : qrKeyMatches row.contest_id row.quarter x = false := Bool.eq_false_iff.mpr hx
      simp only [upsertQR, hx2, Bool.false_eq_true, if_false, countQR, List.filter]
      exact ih

theorem countQR_updateEmailFlags (rows : List QuarterResultRow) (cid q cid2 q2 : String)
    (w o : Bool) :
    countQR (updateEmailFlags rows cid q w o) cid2 q2 = countQR rows cid2 q2 := by
  induction rows with
  | nil => rfl
  | cons x xs ih =>
    by_cases hk : qrKeyMatches cid q x = true
    · have : qrKeyMatches cid2 q2 { x with winner_email_sent := w, owner_email_sent := o } =
          qrKeyMatches cid2 q2 x := qrKeyMatches_update cid2 q2 w o x
      simp only [updateEmailFlags, List.map, hk, if_true, countQR, List.filter, this]
      simp only [countQR, updateEmailFlags] at ih
      cases h2 : qrKeyMatches cid2 q2 x <;> simp [h2, ih]
    · have hk2 : qrKeyMatches cid q x = false := Bool.eq_false_iff.mpr hk
      simp only [updateEmailFlags, List.map, hk2, Bool.false_eq_true, if_false, countQR,
        List.filter]
      simp only [countQR, updateEmailFlags] at ih
      cases h2 : qrKeyMatches cid2 q2 x <;> simp [h2, ih]

-- ===========================================================================
-- Facts about the start-of-call flags and the email steps
-- ===========================================================================

theorem exWinnerSent_eq (db : DBState) (cid q : String) (ex : QuarterResultRow)
    (hex : findQR db.quarter_results cid q = some ex) :
    exWinnerSent db cid q = ex.winner_email_sent := by
  unfold exWinnerSent
  rw [hex]

theorem exOwnerSent_eq (db : DBState) (cid q : String) (ex : QuarterResultRow)
    (hex : findQR db.quarter_results cid q = some ex) :
    exOwnerSent db cid q = ex.owner_email_sent := by
  unfold exOwnerSent
  rw [hex]

theorem exWinnerSent_true_elim (db : DBState) (cid q : String)
    (h : exWinnerSent db cid q = true) :
    ∃ ex, findQR db.quarter_results cid q = some ex ∧ ex.winner_email_sent = true := by
  unfold exWinnerSent at h
  cases hfind : findQR db.quarter_results cid q with
  | none => rw [hfind] at h; exact absurd h (by simp)
  | some ex => rw [hfind] at h; exact ⟨ex, rfl, h⟩

theorem winnerStep_of_exW_true (env : Env) (claimEmail : Option String) :
    winnerStep env true claimEmail = (true, []) := by
  unfold winnerStep
  cases h : truthyStr claimEmail <;> simp [h]

theorem winnerStep_no_claim (env : Env) (exW : Bool) (claimEmail : Option String)
    (h : truthyStr claimEmail = false) :
    winnerStep env exW claimEmail = (true, []) := by
  unfold winnerStep
  simp [h]

theorem winnerStep_kinds (env : Env) (exW : Bool) (claimEmail : Option String) :
    ∀ e ∈ (winnerStep env exW claimEmail).2, e.kind = EmailKind.winner := by
  unfold winnerStep
  intro e he
  by_cases h1 : (!exW && truthyStr claimEmail) = true
  · simp only [h1, if_true] at he
    simp only [List.mem_singleton] at he
    rw [he]
  · have h2 : (!exW && truthyStr claimEmail) = false := Bool.eq_false_iff.mpr h1
    simp only [h2, Bool.false_eq_true, if_false] at he
    by_cases h3 : (!truthyStr claimEmail) = true
    · simp [h3] at he
    · have h4 : (!truthyStr claimEmail) = false := Bool.eq_false_iff.mpr h3
      simp [h4] at he

theorem ownerStep_of_exO_true (env : Env) : ownerStep env true = (true, []) := by
  unfold ownerStep
  simp

theorem ownerStep_kinds (env : Env) (exO : Bool) :
    ∀ e ∈ (ownerStep env exO).2, e.kind = EmailKind.owner := by
  unfold ownerStep
  intro e he
  by_cases h1 : (!exO && truthyStr env.ownerEmail) = true
  · simp only [h1, if_true] at he
    simp only [List.mem_singleton] at he
    rw [he]
  · have h2 : (!exO && truthyStr env.ownerEmail) = false := Bool.eq_false_iff.mpr h1
    simp [h2] at he

/-- The quarter-results table after the successful tail: the built
result row, with the two flags set to the step outcomes. -/
theorem findQR_pqSuccessOut (env : Env) (db : DBState) (c : ContestRow)
    (q : String) (hs as : Nat) (squares : List SquareRow) :
    findQR (pqSuccessOut env db c q hs as squares).db.quarter_results c.id q =
      some { buildResult c q hs as
               (pqWinningSquare c.row_numbers c.col_numbers squares (hs % 10) (as % 10)) with
             winner_email_sent :=
               (winnerStep env (exWinnerSent db c.id q)
                 ((pqWinningSquare c.row_numbers c.col_numbers squares (hs % 10) (as % 10)).bind
                   (·.claimant_email))).1
             owner_email_sent := (ownerStep env (exOwnerSent db c.id q)).1 } := by
  unfold pqSuccessOut
  simp only
  rw [findQR_updateEmailFlags]
  have hkey :
      findQR
        (upsertQR db.quarter_results
          (buildResult c q hs as
            (pqWinningSquare c.row_numbers c.col_numbers squares (hs % 10) (as % 10))))
        c.id q = some (buildResult c q hs as
          (pqWinningSquare c.row_numbers c.col_numbers squares (hs % 10) (as % 10))) :=
    findQR_upsertQR_self db.quarter_results _
  rw [hkey]
  rfl

/-- The emails of the successful tail are the winner step entries
followed by the owner step entries. -/
theorem pqSuccessOut_emails (env : Env) (db : DBState) (c : ContestRow)
    (q : String) (hs as : Nat) (squares : List SquareRow) :
    (pqSuccessOut env db c q hs as squares).emails =
      (winnerStep env (exWinnerSent db c.id q)
        ((pqWinningSquare c.row_numbers c.col_numbers squares (hs % 10) (as % 10)).bind
          (·.claimant_email))).2 ++
      (ownerStep env (exOwnerSent db c.id q)).2 := rfl

-- ===========================================================================
-- C2: partial-failure resumability
-- ===========================================================================

/-- C2: when the existing QuarterResult has winner_email_sent true and
owner_email_sent false at the start of the call, the call attempts
only the owner email (never the winner email), the stored winner flag
is still true afterwards, and on the successful path with a resolvable
owner address the transport trace is exactly one owner email; the
decision is taken from the flags read at the start of the call. -/
theorem C2_owner_only_resend (env : Env) (db : DBState) (c : ContestRow)
    (q : String) (hs as : Nat)
    (hW : exWinnerSent db c.id q = true) (hO : exOwnerSent db c.id q = false) :
    (∀ e ∈ (processQuarter env db c q hs as).emails, e.kind = EmailKind.owner) ∧
    (∃ row, findQR (processQuarter env db c q hs as).db.quarter_results c.id q = some row ∧
      row.winner_email_sent = true) ∧
    (∀ squares, env.squaresResult = some squares → env.upsertOk = true →
      truthyStr env.ownerEmail = true →
      (processQuarter env db c q hs as).emails =
        [{ recipient := env.ownerEmail.getD "", kind := EmailKind.owner, ok := env.ownerSendOk }]) := by
  have hflag : (exWinnerSent db c.id q && exOwnerSent db c.id q) = false := by
    rw [hW, hO]
    rfl
  rcases exWinnerSent_true_elim db c.id q hW with ⟨ex, hex, hexw⟩
  cases hsq : env.squaresResult with
  | none =>
    rw [processQuarter_squaresError env db c q hs as hflag hsq]
    refine ⟨by simp, ⟨ex, hex, hexw⟩, ?_⟩
    intro squares hsq2
    exact absurd hsq2 (by simp)
  | some squares =>
    cases hup : env.upsertOk with
    | false =>
      rw [processQuarter_upsertError env db c q hs as squares hflag hsq hup]
      refine ⟨by simp, ⟨ex, hex, hexw⟩, ?_⟩
      intro squares2 hsq2 hup2
      exact absurd hup2 (by simp)
    | true =>
      rw [processQuarter_success env db c q hs as squares hflag hsq hup]
      have hw : winnerStep env (exWinnerSent db c.id q)
          ((pqWinningSquare c.row_numbers c.col_numbers squares (hs % 10) (as % 10)).bind
            (·.claimant_email)) = (true, []) := by
        rw [hW]
        exact winnerStep_of_exW_true env _
      refine ⟨?_, ?_, ?_⟩
      · intro e he
        rw [pqSuccessOut_emails, hw] at he
        simp only [List.nil_append] at he
        exact ownerStep_kinds env _ e he
      · rw [findQR_pqSuccessOut]
        refine ⟨_, rfl, ?_⟩
        simp [hw]
      · intro squares2 hsq2 hup2 htruthy
        rw [pqSuccessOut_emails, hw, hO]
        simp [ownerStep, htruthy]

-- ===========================================================================
-- C7: email flags are monotonic across a call
-- ===========================================================================

/-- C7: across one processQuarter call the stored email-sent flags of
the (contest, quarter) result never go from true back to false: a flag
that is true in the existing row at the start of the call is still
true in the stored row when the call completes. -/
theorem C7_flag_monotonic (env : Env) (db : DBState) (c : ContestRow)
    (q : String) (hs as : Nat) (ex : QuarterResultRow)
    (hex : findQR db.quarter_results c.id q = some ex) :
    ∃ row, findQR (processQuarter env db c q hs as).db.quarter_results c.id q = some row ∧
      (ex.winner_email_sent = true → row.winner_email_sent = true) ∧
      (ex.owner_email_sent = true → row.owner_email_sent = true) := by
  rcases processQuarter_split env db c q hs as with ⟨hp, hdb, he⟩ | ⟨hflag, squares, hsq, hup, heq⟩
  · rw [hdb]
    exact ⟨ex, hex, fun h => h, fun h => h⟩
  · rw [heq, findQR_pqSuccessOut]
    refine ⟨_, rfl, ?_, ?_⟩
    · intro hwold
      have h1 : exWinnerSent db c.id q = true := by
        rw [exWinnerSent_eq db c.id q ex hex, hwold]
      simp [h1, winnerStep_of_exW_true]
    · intro hoold
      have h1 : exOwnerSent db c.id q = true := by
        rw [exOwnerSent_eq db c.id q ex hex, hoold]
      simp [h1, ownerStep_of_exO_true]

-- ===========================================================================
-- C8: unclaimed winning square
-- ===========================================================================

/-- C8: when the computed winning square has no claimant email address
(including when there is no winning square), no winner-email transport
call is made, the stored row nevertheless records winner_email_sent
true, and the prize amount and payout percent are still computed and
recorded in the QuarterResult. -/
theorem C8_unclaimed_winner (env : Env) (db : DBState) (c : ContestRow)
    (q : String) (hs as : Nat) (squares : List SquareRow)
    (hflag : (exWinnerSent db c.id q && exOwnerSent db c.id q) = false)
    (hsq : env.squaresResult = some squares)
    (hup : env.upsertOk = true)
    (hclaim : truthyStr
      ((pqWinningSquare c.row_numbers c.col_numbers squares (hs % 10) (as % 10)).bind
        (·.claimant_email)) = false) :
    (∀ e ∈ (processQuarter env db c q hs as).emails, e.kind ≠ EmailKind.winner) ∧
    (∃ row, findQR (processQuarter env db c q hs as).db.quarter_results c.id q = some row ∧
      row.winner_email_sent = true ∧
      row.prize_amount = some (getPrizeAmount c q) ∧
      row.payout_percent = some (getPayoutPercent c q)) := by
  rw [processQuarter_success env db c q hs as squares hflag hsq hup]
  have hw := winnerStep_no_claim env (exWinnerSent db c.id q) _ hclaim
  constructor
  · intro e he
    rw [pqSuccessOut_emails, hw] at he
    simp only [List.nil_append] at he
    rw [ownerStep_kinds env _ e he]
    simp
  · rw [findQR_pqSuccessOut]
    refine ⟨_, rfl, ?_, rfl, rfl⟩
    simp [hw]

-- ===========================================================================
-- C10: absent payout percentage behaves as zero
-- ===========================================================================

/-- C10: when the payout column for a quarter is null,
getPayoutPercent returns 0 (indistinguishable from an explicit 0), and
processQuarter still processes the quarter normally, recording a
QuarterResult with prize_amount 0 and payout_percent 0. -/
theorem C10_null_payout (c : ContestRow) (q : String)
    (hnull : payoutField c q = none) :
    getPayoutPercent c q = 0 ∧
    (∀ c2, payoutField c2 q = some 0 → getPayoutPercent c q = getPayoutPercent c2 q) ∧
    (∀ hs as ws, (buildResult c q hs as ws).prize_amount = some 0 ∧
      (buildResult c q hs as ws).payout_percent = some 0) ∧
    (∀ (env : Env) (db : DBState) (hs as : Nat) (squares : List SquareRow),
      (exWinnerSent db c.id q && exOwnerSent db c.id q) = false →
      env.squaresResult = some squares → env.upsertOk = true →
      (processQuarter env db c q hs as).processed = true ∧
      ∃ row, findQR (processQuarter env db c q hs as).db.quarter_results c.id q = some row ∧
        row.prize_amount = some 0 ∧ row.payout_percent = some 0) := by
  have hpp : getPayoutPercent c q = 0 := by
    unfold getPayoutPercent
    rw [hnull]
    rfl
  have hpz : getPrizeAmount c q = 0 := by
    show c.square_price * 100 * getPayoutPercent c q / 100 = 0
    rw [hpp, mul_zero, zero_div]
  refine ⟨hpp, ?_, ?_, ?_⟩
  · intro c2 h2
    rw [hpp]
    unfold getPayoutPercent
    rw [h2]
    rfl
  · intro hs as ws
    constructor
    · show some (getPrizeAmount c q) = some 0
      rw [hpz]
    · show some (getPayoutPercent c q) = some 0
      rw [hpp]
  · intro env db hs as squares hflag hsq hup
    rw [processQuarter_success env db c q hs as squares hflag hsq hup]
    constructor
    · rfl
    · rw [findQR_pqSuccessOut]
      refine ⟨_, rfl, ?_, ?_⟩
      · show some (getPrizeAmount c q) = some 0
        rw [hpz]
      · show some (getPayoutPercent c q) = some 0
        rw [hpp]

-- ===========================================================================
-- Counting successful transport sends
-- ===========================================================================

/-- The number of sends of a given kind the transport accepted. -/
def sentOkCount (emails : List SentEmail) (k : EmailKind) : Nat :=
  (emails.filter fun e => e.kind == k && e.ok).length

theorem sentOkCount_append (l1 l2 : List SentEmail) (k : EmailKind) :
    sentOkCount (l1 ++ l2) k = sentOkCount l1 k + sentOkCount l2 k := by
  simp [sentOkCount, List.filter_append]

theorem sentOkCount_le_length (l : List SentEmail) (k : EmailKind) :
    sentOkCount l k ≤ l.length :=
  List.length_filter_le _ _

theorem winnerStep_snd_length (env : Env) (exW : Bool) (claimEmail : Option String) :
    (winnerStep env exW claimEmail).2.length ≤ 1 := by
  unfold winnerStep
  split
  · simp
  · split <;> simp

theorem winnerStep_owner_count (env : Env) (exW : Bool) (claimEmail : Option String) :
    sentOkCount (winnerStep env exW claimEmail).2 EmailKind.owner = 0 := by
  unfold winnerStep
  split
  · rfl
  · split <;> rfl

theorem ownerStep_winner_count (env : Env) (exO : Bool) :
    sentOkCount (ownerStep env exO).2 EmailKind.winner = 0 := by
  unfold ownerStep
  split <;> rfl

theorem ownerStep_snd_length (env : Env) (exO : Bool) :
    (ownerStep env exO).2.length ≤ 1 := by
  unfold ownerStep
  split <;> simp

theorem winnerStep_pos (env : Env) (exW : Bool) (claimEmail : Option String)
    (h : sentOkCount (winnerStep env exW claimEmail).2 EmailKind.winner ≠ 0) :
    (winnerStep env exW claimEmail).1 = true := by
  unfold winnerStep at h ⊢
  by_cases hc : (!exW && truthyStr claimEmail) = true
  · rw [if_pos hc] at h ⊢
    by_cases hok : env.winnerSendOk = true
    · exact hok
    · exfalso
      apply h
      have hok2 : env.winnerSendOk = false := Bool.eq_false_iff.mpr hok
      simp [sentOkCount, hok2]
  · rw [if_neg hc] at h ⊢
    by_cases h3 : (!truthyStr claimEmail) = true
    · rw [if_pos h3]
    · rw [if_neg h3] at h
      exact absurd rfl h

theorem ownerStep_pos (env : Env) (exO : Bool)
    (h : sentOkCount (ownerStep env exO).2 EmailKind.owner ≠ 0) :
    (ownerStep env exO).1 = true := by
  unfold ownerStep at h ⊢
  by_cases hc : (!exO && truthyStr env.ownerEmail) = true
  · rw [if_pos hc] at h ⊢
    by_cases hok : env.ownerSendOk = true
    · exact hok
    · exfalso
      apply h
      have hok2 : env.ownerSendOk = false := Bool.eq_false_iff.mpr hok
      simp [sentOkCount, hok2]
  · rw [if_neg hc] at h
    exact absurd rfl h

-- ===========================================================================
-- Per-call bounds and flag propagation
-- ===========================================================================

theorem pqSuccessOut_quarter_results (env : Env) (db : DBState) (c : ContestRow)
    (q : String) (hs as : Nat) (squares : List SquareRow) :
    (pqSuccessOut env db c q hs as squares).db.quarter_results =
      updateEmailFlags
        (upsertQR db.quarter_results
          (buildResult c q hs as
            (pqWinningSquare c.row_numbers c.col_numbers squares (hs % 10) (as % 10))))
        c.id q
        (winnerStep env (exWinnerSent db c.id q)
          ((pqWinningSquare c.row_numbers c.col_numbers squares (hs % 10) (as % 10)).bind
            (·.claimant_email))).1
        (ownerStep env (exOwnerSent db c.id q)).1 := rfl

theorem processQuarter_winner_count_le (env : Env) (db : DBState) (c : ContestRow)
    (q : String) (hs as : Nat) :
    sentOkCount (processQuarter env db c q hs as).emails EmailKind.winner ≤ 1 := by
  rcases processQuarter_split env db c q hs as with ⟨_, _, he⟩ | ⟨hflag, squares, hsq, hup, heq⟩
  · rw [he]
    simp [sentOkCount]
  · rw [heq, pqSuccessOut_emails, sentOkCount_append]
    have h1 : sentOkCount (winnerStep env (exWinnerSent db c.id q)
        ((pqWinningSquare c.row_numbers c.col_numbers squares (hs % 10) (as % 10)).bind
          (·.claimant_email))).2 EmailKind.winner ≤ 1 :=
      le_trans (sentOkCount_le_length _ _) (winnerStep_snd_length _ _ _)
    have h2 := ownerStep_winner_count env (exOwnerSent db c.id q)
    omega

theorem processQuarter_owner_count_le (env : Env) (db : DBState) (c : ContestRow)
    (q : String) (hs as : Nat) :
    sentOkCount (processQuarter env db c q hs as).emails EmailKind.owner ≤ 1 := by
  rcases processQuarter_split env db c q hs as with ⟨_, _, he⟩ | ⟨hflag, squares, hsq, hup, heq⟩
  · rw [he]
    simp [sentOkCount]
  · rw [heq, pqSuccessOut_emails, sentOkCount_append]
    have h1 : sentOkCount (ownerStep env (exOwnerSent db c.id q)).2 EmailKind.owner ≤ 1 :=
      le_trans (sentOkCount_le_length _ _) (ownerStep_snd_length _ _)
    have h2 := winnerStep_owner_count env (exWinnerSent db c.id q)
      ((pqWinningSquare c.row_numbers c.col_numbers squares (hs % 10) (as % 10)).bind
        (·.claimant_email))
    omega

theorem processQuarter_winner_sent_flag (env : Env) (db : DBState) (c : ContestRow)
    (q : String) (hs as : Nat)
    (h : sentOkCount (processQuarter env db c q hs as).emails EmailKind.winner ≠ 0) :
    exWinnerSent (processQuarter env db c q hs as).db c.id q = true := by
  rcases processQuarter_split env db c q hs as with ⟨_, _, he⟩ | ⟨hflag, squares, hsq, hup, heq⟩
  · rw [he] at h
    exact absurd rfl h
  · rw [heq] at h ⊢
    rw [pqSuccessOut_emails, sentOkCount_append] at h
    have h2 := ownerStep_winner_count env (exOwnerSent db c.id q)
    have h3 : sentOkCount (winnerStep env (exWinnerSent db c.id q)
        ((pqWinningSquare c.row_numbers c.col_numbers squares (hs % 10) (as % 10)).bind
          (·.claimant_email))).2 EmailKind.winner ≠ 0 := by omega
    have h4 := winnerStep_pos env _ _ h3
    unfold exWinnerSent
    rw [findQR_pqSuccessOut]
    exact h4

theorem processQuarter_owner_sent_flag (env : Env) (db : DBState) (c : ContestRow)
    (q : String) (hs as : Nat)
    (h : sentOkCount (processQuarter env db c q hs as).emails EmailKind.owner ≠ 0) :
    exOwnerSent (processQuarter env db c q hs as).db c.id q = true := by
  rcases processQuarter_split env db c q hs as with ⟨_, _, he⟩ | ⟨hflag, squares, hsq, hup, heq⟩
  · rw [he] at h
    exact absurd rfl h
  · rw [heq] at h ⊢
    rw [pqSuccessOut_emails, sentOkCount_append] at h
    have h2 := winnerStep_owner_count env (exWinnerSent db c.id q)
      ((pqWinningSquare c.row_numbers c.col_numbers squares (hs % 10) (as % 10)).bind
        (·.claimant_email))
    have h3 : sentOkCount (ownerStep env (exOwnerSent db c.id q)).2 EmailKind.owner ≠ 0 := by
      omega
    have h4 := ownerStep_pos env _ h3
    unfold exOwnerSent
    rw [findQR_pqSuccessOut]
    exact h4

theorem processQuarter_winner_count_zero (env : Env) (db : DBState) (c : ContestRow)
    (q : String) (hs as : Nat) (h : exWinnerSent db c.id q = true) :
    sentOkCount (processQuarter env db c q hs as).emails EmailKind.winner = 0 := by
  rcases processQuarter_split env db c q hs as with ⟨_, _, he⟩ | ⟨hflag, squares, hsq, hup, heq⟩
  · rw [he]
    rfl
  · rw [heq, pqSuccessOut_emails, sentOkCount_append, h, winnerStep_of_exW_true]
    have h2 := ownerStep_winner_count env (exOwnerSent db c.id q)
    simpa [sentOkCount] using h2

theorem processQuarter_owner_count_zero (env : Env) (db : DBState) (c : ContestRow)
    (q : String) (hs as : Nat) (h : exOwnerSent db c.id q = true) :
    sentOkCount (processQuarter env db c q hs as).emails EmailKind.owner = 0 := by
  rcases processQuarter_split env db c q hs as with ⟨_, _, he⟩ | ⟨hflag, squares, hsq, hup, heq⟩
  · rw [he]
    rfl
  · rw [heq, pqSuccessOut_emails, sentOkCount_append, h, ownerStep_of_exO_true]
    have h2 := winnerStep_owner_count env (exWinnerSent db c.id q)
      ((pqWinningSquare c.row_numbers c.col_numbers squares (hs % 10) (as % 10)).bind
        (·.claimant_email))
    simpa [sentOkCount] using h2

theorem countQR_pqSuccessOut (env : Env) (db : DBState) (c : ContestRow)
    (q : String) (hs as : Nat) (squares : List SquareRow) :
    countQR (pqSuccessOut env db c q hs as squares).db.quarter_results c.id q =
      max 1 (countQR db.quarter_results c.id q) := by
  rw [pqSuccessOut_quarter_results, countQR_updateEmailFlags]
  have h5 := countQR_upsertQR_self db.quarter_results
    (buildResult c q hs as
      (pqWinningSquare c.row_numbers c.col_numbers squares (hs % 10) (as % 10)))
  rw [show (buildResult c q hs as
      (pqWinningSquare c.row_numbers c.col_numbers squares (hs % 10) (as % 10))).contest_id =
      c.id from rfl] at h5
  rw [show (buildResult c q hs as
      (pqWinningSquare c.row_numbers c.col_numbers squares (hs % 10) (as % 10))).quarter =
      q from rfl] at h5
  exact h5

theorem processQuarter_countQR_le (env : Env) (db : DBState) (c : ContestRow)
    (q : String) (hs as : Nat) (h : countQR db.quarter_results c.id q ≤ 1) :
    countQR (processQuarter env db c q hs as).db.quarter_results c.id q ≤ 1 := by
  rcases processQuarter_split env db c q hs as with ⟨_, hdb, _⟩ | ⟨hflag, squares, hsq, hup, heq⟩
  · rw [hdb]
    exact h
  · rw [heq, countQR_pqSuccessOut]
    omega

theorem processQuarter_countQR_processed (env : Env) (db : DBState) (c : ContestRow)
    (q : String) (hs as : Nat) (h : countQR db.quarter_results c.id q ≤ 1)
    (hp : (processQuarter env db c q hs as).processed = true) :
    countQR (processQuarter env db c q hs as).db.quarter_results c.id q = 1 := by
  rcases processQuarter_split env db c q hs as with ⟨hp2, _, _⟩ | ⟨hflag, squares, hsq, hup, heq⟩
  · rw [hp2] at hp
    exact absurd hp (by simp)
  · rw [heq, countQR_pqSuccessOut]
    omega

theorem processQuarter_countQR_one (env : Env) (db : DBState) (c : ContestRow)
    (q : String) (hs as : Nat) (h : countQR db.quarter_results c.id q = 1) :
    countQR (processQuarter env db c q hs as).db.quarter_results c.id q = 1 := by
  rcases processQuarter_split env db c q hs as with ⟨_, hdb, _⟩ | ⟨hflag, squares, hsq, hup, heq⟩
  · rw [hdb]
    exact h
  · rw [heq, countQR_pqSuccessOut]
    omega

theorem twoCall_winner_le (env : Env) (db0 : DBState) (c : ContestRow)
    (q : String) (hs as : Nat) :
    sentOkCount ((processQuarter env db0 c q hs as).emails ++
      (processQuarter env (processQuarter env db0 c q hs as).db c q hs as).emails)
      EmailKind.winner ≤ 1 := by
  rw [sentOkCount_append]
  by_cases h : sentOkCount (processQuarter env db0 c q hs as).emails EmailKind.winner = 0
  · have h2 := processQuarter_winner_count_le env (processQuarter env db0 c q hs as).db c q hs as
    omega
  · have h1 := processQuarter_winner_sent_flag env db0 c q hs as h
    have h2 := processQuarter_winner_count_zero env (processQuarter env db0 c q hs as).db c q hs as h1
    have h3 := processQuarter_winner_count_le env db0 c q hs as
    omega

theorem twoCall_owner_le (env : Env) (db0 : DBState) (c : ContestRow)
    (q : String) (hs as : Nat) :
    sentOkCount ((processQuarter env db0 c q hs as).emails ++
      (processQuarter env (processQuarter env db0 c q hs as).db c q hs as).emails)
      EmailKind.owner ≤ 1 := by
  rw [sentOkCount_append]
  by_cases h : sentOkCount (processQuarter env db0 c q hs as).emails EmailKind.owner = 0
  · have h2 := processQuarter_owner_count_le env (processQuarter env db0 c q hs as).db c q hs as
    omega
  · have h1 := processQuarter_owner_sent_flag env db0 c q hs as h
    have h2 := processQuarter_owner_count_zero env (processQuarter env db0 c q hs as).db c q hs as h1
    have h3 := processQuarter_owner_count_le env db0 c q hs as
    omega

-- ===========================================================================
-- C1: full idempotency
-- ===========================================================================

/-- C1: when the existing QuarterResult of the (contest, quarter) pair
has both email-sent flags true, processQuarter short-circuits with
processed false, no error, an unchanged database (no result upsert, no
scores write, no flag update) and no transport call; consequently two
successive calls with identical inputs keep at most one QuarterResult
row for the pair (exactly one when processing happened) and each email
is accepted by the transport at most once. -/
theorem C1_full_idempotency (env : Env) (db : DBState) (c : ContestRow)
    (q : String) (hs as : Nat)
    (h1 : exWinnerSent db c.id q = true) (h2 : exOwnerSent db c.id q = true) :
    processQuarter env db c q hs as =
      { processed := false, error := none, db := db, emails := [] } ∧
    (∀ (env2 : Env) (db0 : DBState),
      countQR db0.quarter_results c.id q ≤ 1 →
      countQR (processQuarter env2 (processQuarter env2 db0 c q hs as).db
        c q hs as).db.quarter_results c.id q ≤ 1 ∧
      ((processQuarter env2 db0 c q hs as).processed = true →
        countQR (processQuarter env2 (processQuarter env2 db0 c q hs as).db
          c q hs as).db.quarter_results c.id q = 1) ∧
      sentOkCount ((processQuarter env2 db0 c q hs as).emails ++
        (processQuarter env2 (processQuarter env2 db0 c q hs as).db c q hs as).emails)
        EmailKind.winner ≤ 1 ∧
      sentOkCount ((processQuarter env2 db0 c q hs as).emails ++
        (processQuarter env2 (processQuarter env2 db0 c q hs as).db c q hs as).emails)
        EmailKind.owner ≤ 1) := by
  refine ⟨processQuarter_shortcircuit env db c q hs as (by rw [h1, h2]; rfl), ?_⟩
  intro env2 db0 hcount
  refine ⟨?_, ?_, twoCall_winner_le env2 db0 c q hs as, twoCall_owner_le env2 db0 c q hs as⟩
  · exact processQuarter_countQR_le env2 _ c q hs as
      (processQuarter_countQR_le env2 db0 c q hs as hcount)
  · intro hp
    exact processQuarter_countQR_one env2 _ c q hs as
      (processQuarter_countQR_processed env2 db0 c q hs as hcount hp)

-- ===========================================================================
-- C9: contests without assigned numbers are skipped entirely
-- ===========================================================================

theorem processQuarter_rows (env : Env) (db : DBState) (c : ContestRow)
    (q : String) (hs as : Nat) :
    ∀ row ∈ (processQuarter env db c q hs as).db.quarter_results,
      row ∈ db.quarter_results ∨ row.contest_id = c.id := by
  intro row hrow
  rcases processQuarter_split env db c q hs as with ⟨_, hdb, _⟩ | ⟨hflag, squares, hsq, hup, heq⟩
  · rw [hdb] at hrow
    exact Or.inl hrow
  · rw [heq, pqSuccessOut_quarter_results] at hrow
    rcases mem_updateEmailFlags _ _ _ _ _ _ hrow with h1 | h1
    · rcases mem_upsertQR _ _ _ h1 with h2 | h2
      · exact Or.inl h2
      · right
        rw [h2]
        rfl
    · exact Or.inr h1

theorem processQuarters_entries (envOf : String → String → Env) (c : ContestRow)
    (quarters : List String) (db : DBState) (hs as : Nat) :
    ∀ e ∈ (processQuarters envOf c quarters db hs as).1, e.contestId = c.id := by
  induction quarters generalizing db with
  | nil =>
    intro e he
    simp [processQuarters] at he
  | cons q rest ih =>
    intro e he
    simp only [processQuarters] at he
    rcases List.mem_cons.mp he with h1 | h1
    · rw [h1]
    · exact ih _ e h1

theorem processQuarters_rows (envOf : String → String → Env) (c : ContestRow)
    (quarters : List String) (db : DBState) (hs as : Nat) :
    ∀ row ∈ (processQuarters envOf c quarters db hs as).2.quarter_results,
      row ∈ db.quarter_results ∨ row.contest_id = c.id := by
  induction quarters generalizing db with
  | nil =>
    intro row h
    exact Or.inl h
  | cons q rest ih =>
    intro row hrow
    simp only [processQuarters] at hrow
    rcases ih _ row hrow with h1 | h1
    · exact processQuarter_rows (envOf c.id q) db c q hs as row h1
    · exact Or.inr h1

theorem processContests_entries (envOf : String → String → Env) (quarters : List String)
    (contests : List ContestRow) (db : DBState) (hs as : Nat) :
    ∀ e ∈ (processContests envOf quarters contests db hs as).1,
      ∃ c, c ∈ contests ∧ e.contestId = c.id ∧ c.row_numbers ≠ none ∧ c.col_numbers ≠ none := by
  induction contests generalizing db with
  | nil =>
    intro e he
    simp [processContests] at he
  | cons c rest ih =>
    intro e he
    simp only [processContests] at he
    by_cases hskip : (c.row_numbers.isNone || c.col_numbers.isNone) = true
    · rw [if_pos hskip] at he
      rcases ih _ e he with ⟨c2, hc2, h3⟩
      exact ⟨c2, List.mem_cons_of_mem c hc2, h3⟩
    · rw [if_neg hskip] at he
      have hnums : c.row_numbers ≠ none ∧ c.col_numbers ≠ none := by
        simp only [Bool.or_eq_true, Option.isNone_iff_eq_none] at hskip
        push_neg at hskip
        exact hskip
      rcases List.mem_append.mp he with h1 | h1
      · exact ⟨c, List.mem_cons_self c rest,
          processQuarters_entries envOf c quarters db hs as e h1, hnums.1, hnums.2⟩
      · rcases ih _ e h1 with ⟨c2, hc2, h3⟩
        exact ⟨c2, List.mem_cons_of_mem c hc2, h3⟩

theorem processContests_rows (envOf : String → String → Env) (quarters : List String)
    (contests : List ContestRow) (db : DBState) (hs as : Nat) :
    ∀ row ∈ (processContests envOf quarters contests db hs as).2.quarter_results,
      row ∈ db.quarter_results ∨
        ∃ c, c ∈ contests ∧ row.contest_id = c.id ∧
          c.row_numbers ≠ none ∧ c.col_numbers ≠ none := by
  induction contests generalizing db with
  | nil =>
    intro row h
    exact Or.inl h
  | cons c rest ih =>
    intro row hrow
    simp only [processContests] at hrow
    by_cases hskip : (c.row_numbers.isNone || c.col_numbers.isNone) = true
    · rw [if_pos hskip] at hrow
      rcases ih _ row hrow with h1 | ⟨c2, hc2, h3⟩
      · exact Or.inl h1
      · exact Or.inr ⟨c2, List.mem_cons_of_mem c hc2, h3⟩
    · rw [if_neg hskip] at hrow
      have hnums : c.row_numbers ≠ none ∧ c.col_numbers ≠ none := by
        simp only [Bool.or_eq_true, Option.isNone_iff_eq_none] at hskip
        push_neg at hskip
        exact hskip
      rcases ih _ row hrow with h1 | ⟨c2, hc2, h3⟩
      · rcases processQuarters_rows envOf c quarters db hs as row h1 with h2 | h2
        · exact Or.inl h2
        · exact Or.inr ⟨c, List.mem_cons_self c rest, h2, hnums.1, hnums.2⟩
      · exact Or.inr ⟨c2, List.mem_cons_of_mem c hc2, h3⟩

/-- C9: a contest of the eligible set whose row_numbers or col_numbers
is null is skipped before per-quarter processing: every per-pair
result entry and every new or modified QuarterResult row belongs to a
contest with both assignments present, so a null-assignment contest
(with a distinct id) gets no entry, no error, and no QuarterResult row
for any quarter. -/
theorem C9_skip_unassigned (envOf : String → String → Env) (quarters : List String)
    (contests : List ContestRow) (db : DBState) (hs as : Nat) :
    (∀ e ∈ (processContests envOf quarters contests db hs as).1,
      ∃ c, c ∈ contests ∧ e.contestId = c.id ∧ c.row_numbers ≠ none ∧ c.col_numbers ≠ none) ∧
    (∀ row ∈ (processContests envOf quarters contests db hs as).2.quarter_results,
      row ∈ db.quarter_results ∨
        ∃ c, c ∈ contests ∧ row.contest_id = c.id ∧
          c.row_numbers ≠ none ∧ c.col_numbers ≠ none) ∧
    (∀ c0 ∈ contests, (c0.row_numbers = none ∨ c0.col_numbers = none) →
      (∀ c2 ∈ contests, c2.id = c0.id → c2 = c0) →
      (∀ e ∈ (processContests envOf quarters contests db hs as).1, e.contestId ≠ c0.id) ∧
      (∀ row ∈ (processContests envOf quarters contests db hs as).2.quarter_results,
        row.contest_id = c0.id → row ∈ db.quarter_results)) := by
  refine ⟨processContests_entries envOf quarters contests db hs as,
    processContests_rows envOf quarters contests db hs as, ?_⟩
  intro c0 hc0 hnull huniq
  constructor
  · intro e he heq
    rcases processContests_entries envOf quarters contests db hs as e he with
      ⟨c2, hc2, hid, hrn, hcn⟩
    have : c2 = c0 := huniq c2 hc2 (by rw [← hid, heq])
    subst this
    rcases hnull with h | h
    · exact hrn h
    · exact hcn h
  · intro row hrow heq
    rcases processContests_rows envOf quarters contests db hs as row hrow with
      h1 | ⟨c2, hc2, hid, hrn, hcn⟩
    · exact h1
    · exfalso
      have : c2 = c0 := huniq c2 hc2 (by rw [← hid, heq])
      subst this
      rcases hnull with h | h
      · exact hrn h
      · exact hcn h

-- ===========================================================================
-- Concrete states for the remaining witnesses
-- ===========================================================================

/-- An existing result row for (contest-1, q1) with both emails sent. -/
def sampleResultBoth : QuarterResultRow :=
  { contest_id := "contest-1"
    quarter := "q1"
    home_score := 14
    away_score := 7
    home_last_digit := 4
    away_last_digit := 7
    winning_square_id := none
    winner_first_name := none
    winner_last_name := none
    winner_email := none
    winner_venmo := none
    prize_amount := some 250
    payout_percent := some 25
    winner_email_sent := true
    owner_email_sent := true }

/-- The same row with only the winner email sent. -/
def sampleResultWinnerOnly : QuarterResultRow :=
  { sampleResultBoth with winner_email_sent := true, owner_email_sent := false }

def dbEmpty : DBState := { quarter_results := [], scores := [] }

def dbBoth : DBState := { quarter_results := [sampleResultBoth], scores := [] }

def dbWinnerOnly : DBState := { quarter_results := [sampleResultWinnerOnly], scores := [] }

/-- An environment where every external call succeeds. -/
def sampleEnv : Env :=
  { squaresResult := some [sampleSquare]
    upsertOk := true
    ownerEmail := some "owner@example.com"
    winnerSendOk := true
    ownerSendOk := true }

/-- The same environment but the fetched squares are unclaimed. -/
def envUnclaimed : Env := { sampleEnv with squaresResult := some [sampleUnclaimedSquare] }

/-- A contest whose Halftime payout column is null. -/
def contestNullPayout : ContestRow := { sampleContest with payout_q2_percent := none }

/-- A contest whose numbers were never assigned. -/
def contestUnassigned : ContestRow :=
  { sampleContest with id := "contest-2", row_numbers := none }

-- ===========================================================================
-- Witnesses for C1, C2, C7, C8, C9, C10
-- ===========================================================================

/-- Witness for C1: with both flags already true the call is a no-op,
and two successive calls from an empty database accept the winner
email at most once. -/
theorem C1_witness :
    processQuarter sampleEnv dbBoth sampleContest "q1" 14 7 =
      { processed := false, error := none, db := dbBoth, emails := [] } ∧
    sentOkCount ((processQuarter sampleEnv dbEmpty sampleContest "q1" 14 7).emails ++
      (processQuarter sampleEnv (processQuarter sampleEnv dbEmpty sampleContest "q1" 14 7).db
        sampleContest "q1" 14 7).emails) EmailKind.winner ≤ 1 := by
  have h := C1_full_idempotency sampleEnv dbBoth sampleContest "q1" 14 7 (by decide) (by decide)
  exact ⟨h.1, (h.2 sampleEnv dbEmpty (by decide)).2.2.1⟩

/-- Witness for C2: from a winner-sent, owner-pending row the call
keeps the winner flag true and its transport trace is exactly one
owner email. -/
theorem C2_witness :
    (∃ row, findQR (processQuarter sampleEnv dbWinnerOnly sampleContest "q1" 14 7).db.quarter_results
      sampleContest.id "q1" = some row ∧ row.winner_email_sent = true) ∧
    (processQuarter sampleEnv dbWinnerOnly sampleContest "q1" 14 7).emails =
      [{ recipient := sampleEnv.ownerEmail.getD "", kind := EmailKind.owner,
         ok := sampleEnv.ownerSendOk }] := by
  have h := C2_owner_only_resend sampleEnv dbWinnerOnly sampleContest "q1" 14 7
    (by decide) (by decide)
  exact ⟨h.2.1, h.2.2 [sampleSquare] rfl rfl (by decide)⟩

/-- Witness for C7: starting from a winner-sent, owner-pending row the
stored flags never fall back to false. -/
theorem C7_witness :
    ∃ row, findQR (processQuarter sampleEnv dbWinnerOnly sampleContest "q1" 14 7).db.quarter_results
      sampleContest.id "q1" = some row ∧
      (sampleResultWinnerOnly.winner_email_sent = true → row.winner_email_sent = true) ∧
      (sampleResultWinnerOnly.owner_email_sent = true → row.owner_email_sent = true) :=
  C7_flag_monotonic sampleEnv dbWinnerOnly sampleContest "q1" 14 7 sampleResultWinnerOnly
    (by decide)

/-- Witness for C8: with an unclaimed winning square no winner email
is attempted while the flag and the prize fields are recorded. -/
theorem C8_witness :
    (∀ e ∈ (processQuarter envUnclaimed dbEmpty sampleContest "q1" 47 23).emails,
      e.kind ≠ EmailKind.winner) ∧
    (∃ row, findQR (processQuarter envUnclaimed dbEmpty sampleContest "q1" 47 23).db.quarter_results
      sampleContest.id "q1" = some row ∧ row.winner_email_sent = true ∧
      row.prize_amount = some (getPrizeAmount sampleContest "q1") ∧
      row.payout_percent = some (getPayoutPercent sampleContest "q1")) :=
  C8_unclaimed_winner envUnclaimed dbEmpty sampleContest "q1" 47 23 [sampleUnclaimedSquare]
    (by decide) rfl rfl (by decide)

/-- Witness for C9: a run over one unassigned and one assigned contest
produces no entry and no row for the unassigned one. -/
theorem C9_witness :
    (∀ e ∈ (processContests (fun _ _ => sampleEnv) ["q1"] [contestUnassigned, sampleContest]
      dbEmpty 47 23).1, e.contestId ≠ contestUnassigned.id) ∧
    (∀ row ∈ (processContests (fun _ _ => sampleEnv) ["q1"] [contestUnassigned, sampleContest]
      dbEmpty 47 23).2.quarter_results,
      row.contest_id = contestUnassigned.id → row ∈ dbEmpty.quarter_results) :=
  (C9_skip_unassigned (fun _ _ => sampleEnv) ["q1"] [contestUnassigned, sampleContest]
    dbEmpty 47 23).2.2 contestUnassigned (List.mem_cons_self _ _) (Or.inl rfl) (by decide)

/-- Witness for C10: a null Halftime payout behaves as zero and the
quarter is still processed, recording prize 0 and payout 0. -/
theorem C10_witness :
    getPayoutPercent contestNullPayout "q2" = 0 ∧
    (processQuarter sampleEnv dbEmpty contestNullPayout "q2" 47 23).processed = true ∧
    (∃ row, findQR (processQuarter sampleEnv dbEmpty contestNullPayout "q2" 47 23).db.quarter_results
      contestNullPayout.id "q2" = some row ∧ row.prize_amount = some 0 ∧
      row.payout_percent = some 0) := by
  have h := C10_null_payout contestNullPayout "q2" (by decide)
  have h4 := h.2.2.2 sampleEnv dbEmpty 47 23 [sampleSquare] (by decide) rfl rfl
  exact ⟨h.1, h4.1, h4.2⟩
